import Mathlib

/-!
Verification of the evaluation-dashboard core of this repository:

* the Score Series Builder, `processChartData` in
  `ui/litellm-dashboard/src/components/identity_eval_chart.tsx`, and
* the Dataset Selection Coordinator, `handleCheckboxChange` in
  `ui/litellm-dashboard/src/components/eval_models.tsx`.

Both components are translated into executable Lean definitions below and
the spec's claims about them are proved or refuted.
-/

/-! ## Data model (identity_eval_chart.tsx lines 25-41) -/

/-- One scored evaluation run, the `ModelTestResult` interface
(identity_eval_chart.tsx lines 25-37).  The JS `score: number` is modelled
as `ℚ`; the builder never does arithmetic on scores, it only copies them. -/
structure ModelTestResult where
  id : Int
  model_id : String
  dataset_key : String
  dataset_name : String
  metric : String
  score : ℚ
  subset : String
  num : Int
  date : String
  created_at : String
  updated_at : String
  deriving Repr

/-- `IdentityEvalData` (identity_eval_chart.tsx lines 39-41): a JS object
mapping a date string to the results of that date.  Modelled as an
association list in the object's key insertion order; a well-formed JS
object has pairwise distinct keys, which claims assume explicitly where
they need it. -/
abbrev IdentityEvalData : Type := List (String × List ModelTestResult)

/-- One chart series, the element type of `chartData.series`
(identity_eval_chart.tsx lines 111-115).  A `data` slot is `none` exactly
where the JS array still holds its `null` fill. -/
structure Series where
  name : String
  data : List (Option ℚ)
  datasetKey : String
  deriving Repr

/-- The result shape of `processChartData` (identity_eval_chart.tsx
lines 109-119). -/
structure ChartData where
  dates : List String
  series : List Series
  deriving Repr

/-! ## Date parsing and the sort of the date axis

`processChartData` sorts the keys with
`(a, b) => new Date(a).getTime() - new Date(b).getTime()`
(identity_eval_chart.tsx lines 127-129).  `parseDate` below models
`new Date(s).getTime()` for date-key strings: a string of the shape
`Y-M-D` with all-numeric components, month 1..12 and day 1..31 parses to
a value monotone in (year, month, day); every other string is an Invalid
Date, i.e. `getTime()` is NaN, modelled as `none`.  (The model collapses
time-of-day offsets; it is order-faithful for keys naming distinct
calendar days, which is the granularity every claim speaks at.)

`Array.prototype.sort` is a stable sort and treats a NaN comparator
result as `+0` (ES CompareArrayElements), i.e. as "equal"; `sortDates`
is a stable insertion sort over the induced boolean order `dateLe`,
where `dateLe a b` means "the comparator does not require `a` after
`b`", so a key with an unparsable date compares equal to every key. -/

/-- Split a character list at every `'-'`, modelling `s.split("-")` as
used by JS date parsing of `Y-M-D` strings. -/
def splitDash : List Char → List (List Char)
  | [] => [[]]
  | c :: cs =>
    match splitDash cs with
    | [] => [[c]]
    | g :: gs => if c = '-' then [] :: g :: gs else (c :: g) :: gs

/-- Decimal value of a digit string. -/
def digitsVal (cs : List Char) : Nat :=
  cs.foldl (fun n c => n * 10 + (c.toNat - '0'.toNat)) 0

/-- Parse one numeric date component. -/
def parseComponent (cs : List Char) : Option Nat :=
  if cs ≠ [] ∧ cs.all (fun c => c.isDigit) then some (digitsVal cs) else none

/-- Model of `new Date(s).getTime()` on date-key strings; `none` is NaN
(Invalid Date). -/
def parseDate (s : String) : Option Nat :=
  match (splitDash s.data).map parseComponent with
  | [some y, some m, some d] =>
    if 1 ≤ m ∧ m ≤ 12 ∧ 1 ≤ d ∧ d ≤ 31 then
      some ((y * 12 + (m - 1)) * 31 + (d - 1))
    else none
  | _ => none

/-- The boolean order induced by the comparator of identity_eval_chart.tsx
line 128: `dateLe a b` holds when the comparator value for `(a, b)` is
`≤ 0`, with a NaN value treated as `0` as `Array.prototype.sort` does. -/
def dateLe (a b : String) : Bool :=
  match parseDate a, parseDate b with
  | some x, some y => x ≤ y
  | _, _ => true

/-- Insert into a `dateLe`-sorted list, before the first element it need
not follow (the placement a stable sort gives the later-arriving key). -/
def sortInsert (x : String) : List String → List String
  | [] => [x]
  | y :: ys => if dateLe x y then x :: y :: ys else y :: sortInsert x ys

/-- Stable sort of the date keys, modelling
`Object.keys(evalData).sort((a, b) => new Date(a).getTime() - new Date(b).getTime())`
(identity_eval_chart.tsx lines 127-129). -/
def sortDates : List String → List String
  | [] => []
  | x :: xs => sortInsert x (sortDates xs)

/-! ## The Score Series Builder (identity_eval_chart.tsx lines 108-178) -/

/-- The filter test of identity_eval_chart.tsx lines 146-149: the result
belongs to the chart's model and passes the dataset dropdown filter. -/
def matchesFilter (modelId selectedDataset : String) (r : ModelTestResult) : Bool :=
  r.model_id == modelId &&
    (selectedDataset == "all" || r.dataset_key == selectedDataset)

/-- The `seriesMap` of identity_eval_chart.tsx lines 133-140: a JS `Map`
from dataset key to series, in key insertion order. -/
abbrev SeriesMap : Type := List (String × Series)

/-- `seriesMap.set` guarded by `!seriesMap.has` (identity_eval_chart.tsx
lines 150-156): insert a fresh series, with `data` filled with the absent
marker, only when the key is not yet present. -/
def addSeriesEntry (n : Nat) (m : SeriesMap) (key : String) : SeriesMap :=
  if (List.lookup key m).isSome then m
  else m ++ [(key, ⟨key, List.replicate n none, key⟩)]

/-- First pass (identity_eval_chart.tsx lines 143-159): walk every result
of one date and register the dataset keys that pass the filter. -/
def addAtDate (modelId selectedDataset : String) (n : Nat)
    (rs : List ModelTestResult) (m : SeriesMap) : SeriesMap :=
  rs.foldl
    (fun m r =>
      if matchesFilter modelId selectedDataset r then
        addSeriesEntry n m r.dataset_key
      else m)
    m

/-- `seriesData.data[dateIndex] = result.score` reached through
`seriesMap.get` (identity_eval_chart.tsx lines 168-171): overwrite slot
`i` of the series stored under `key`; a missing key is a no-op, as the
JS `if (seriesData)` guard makes it. -/
def setSlot (m : SeriesMap) (key : String) (i : Nat) (v : ℚ) : SeriesMap :=
  m.map fun e =>
    if e.1 == key then (e.1, { e.2 with data := e.2.data.set i (some v) }) else e

/-- Second pass, inner loop (identity_eval_chart.tsx lines 162-174): walk
every result of the date at axis index `i` and write its score into its
series' slot `i`. -/
def fillAtDate (modelId selectedDataset : String) (i : Nat)
    (rs : List ModelTestResult) (m : SeriesMap) : SeriesMap :=
  rs.foldl
    (fun m r =>
      if matchesFilter modelId selectedDataset r then
        setSlot m r.dataset_key i r.score
      else m)
    m

/-- The results stored under `date`, i.e. the JS `evalData[date]`. -/
def resultsAt (evalData : IdentityEvalData) (date : String) : List ModelTestResult :=
  (List.lookup date evalData).getD []

/-- The Score Series Builder, `processChartData`
(identity_eval_chart.tsx lines 108-178), for one model id and the current
dataset dropdown value. -/
def processChartData (evalData : IdentityEvalData)
    (selectedDataset modelId : String) : ChartData :=
  if evalData.isEmpty then ⟨[], []⟩
  else
    let sortedDates := sortDates (evalData.map Prod.fst)
    let m := sortedDates.foldl
      (fun m date => addAtDate modelId selectedDataset sortedDates.length
        (resultsAt evalData date) m)
      []
    let m := sortedDates.enum.foldl
      (fun m p => fillAtDate modelId selectedDataset p.1
        (resultsAt evalData p.2) m)
      m
    ⟨sortedDates, m.map Prod.snd⟩

example :
    processChartData
      [("2024-01-02",
        [⟨1, "m1", "AIME24", "AIME 2024", "acc", 0.5, "all", 30, "2024-01-02", "", ""⟩]),
       ("2024-01-01",
        [⟨2, "m1", "AIME24", "AIME 2024", "acc", 0.8, "all", 30, "2024-01-01", "", ""⟩])]
      "all" "m1" =
    ⟨["2024-01-01", "2024-01-02"],
     [⟨"AIME24", [some 0.8, some 0.5], "AIME24"⟩]⟩ := rfl

/-! ## The Dataset Selection Coordinator (eval_models.tsx) -/

/-- The supported-dataset catalog `SUPPORTED_DATASETS`
(eval_models.tsx lines 31-39). -/
def SUPPORTED_DATASETS : List String :=
  ["AIME24", "AIME25", "GPQA_DIAMOND", "MMLU_PRO_LAW", "MMLU_PRO_BUSINESS",
   "MMLU_PRO_PHILOSOPHY", "LIVE_CODE_BENCH"]

/-- One row of the model/dataset configuration, the `ModelData` interface
(eval_models.tsx lines 41-45). -/
structure ModelData where
  model_id : String
  model_name : String
  dataset_keys : List String
  deriving Repr, DecidableEq

/-- One row of the update payload built at eval_models.tsx lines 102-106.
Its `model_id` field carries the model's `model_name` — the key-identity
shim the external update endpoint expects. -/
structure UpdateRow where
  model_id : String
  dataset_keys : List String
  deriving Repr, DecidableEq

/-- The new `dataset_keys` computed at eval_models.tsx lines 80-88: add
the key when checking and it is absent, remove it when unchecking and it
is present, otherwise keep the list as it is.  (The
`Array.isArray` re-check of lines 91-93 can never fire and is omitted.) -/
def computeNewKeys (keys : List String) (datasetKey : String) (checked : Bool) : List String :=
  if checked && !(keys.contains datasetKey) then keys ++ [datasetKey]
  else if !checked && keys.contains datasetKey then
    keys.filter (fun key => key != datasetKey)
  else keys

/-- The full-snapshot update payload of eval_models.tsx lines 102-106:
one row per cached model, keyed by `model_name`, with the toggled model's
row carrying the newly computed keys. -/
def buildPayload (models : List ModelData) (modelId : String)
    (newDatasetKeys : List String) : List UpdateRow :=
  models.map fun m =>
    ⟨m.model_name, if m.model_id == modelId then newDatasetKeys else m.dataset_keys⟩

/-- The `setEvalModels` updater run on update success
(eval_models.tsx lines 112-116). -/
def applySuccess (models : List ModelData) (modelId : String)
    (newDatasetKeys : List String) : List ModelData :=
  models.map fun m =>
    if m.model_id == modelId then { m with dataset_keys := newDatasetKeys } else m

/-- Everything one invocation of `handleCheckboxChange` does, as observed
from outside: the cache it leaves behind, the payload it sent (if it
reached the network call), which notification it raised, and the value of
the `updating` marker while the call was in flight (`markerDuring`, set
by `setUpdating(modelId)` at line 73 before any other work) and after the
`finally` block (`markerAfter`, line 123). -/
structure ToggleResult where
  finalModels : List ModelData
  payload : Option (List UpdateRow)
  reportedSuccess : Bool
  reportedError : Bool
  markerDuring : Option String
  markerAfter : Option String
  deriving Repr, DecidableEq

/-- The Dataset Selection Coordinator's toggle handler,
`handleCheckboxChange` (eval_models.tsx lines 70-127).  The suspension of
`await evalModelsUpdateCall` is modelled by the boolean `updateSucceeds`:
`true` runs the success continuation of lines 112-118, `false` the
`catch` of lines 119-121; both fall through to the `finally` of
lines 122-124.  When the model id is not in the cache the handler
returns early (line 77) without a network call — the `finally` still
clears the marker. -/
def handleCheckboxChange (models : List ModelData)
    (modelId datasetKey : String) (checked : Bool)
    (updateSucceeds : Bool) : ToggleResult :=
  match models.find? (fun m => m.model_id == modelId) with
  | none =>
    { finalModels := models, payload := none,
      reportedSuccess := false, reportedError := false,
      markerDuring := some modelId, markerAfter := none }
  | some model =>
    let newDatasetKeys := computeNewKeys model.dataset_keys datasetKey checked
    let modelsData := buildPayload models modelId newDatasetKeys
    if updateSucceeds then
      { finalModels := applySuccess models modelId newDatasetKeys,
        payload := some modelsData,
        reportedSuccess := true, reportedError := false,
        markerDuring := some modelId, markerAfter := none }
    else
      { finalModels := models, payload := some modelsData,
        reportedSuccess := false, reportedError := true,
        markerDuring := some modelId, markerAfter := none }

/-- The checkbox `disabled` predicate of eval_models.tsx line 175:
`updating === model.model_id`. -/
def checkboxDisabled (updating : Option String) (modelId : String) : Bool :=
  updating == some modelId

example :
    handleCheckboxChange [⟨"m2", "gpt-x", ["AIME24"]⟩] "m2" "AIME25" true true =
    { finalModels := [⟨"m2", "gpt-x", ["AIME24", "AIME25"]⟩],
      payload := some [⟨"gpt-x", ["AIME24", "AIME25"]⟩],
      reportedSuccess := true, reportedError := false,
      markerDuring := some "m2", markerAfter := none } := by decide

/-! ## Lemmas about the date-axis sort -/

/-- The parsed day value of a key, defaulting for unparsable keys; used
only to state sortedness of axes whose keys all parse. -/
def dateVal (s : String) : Nat := (parseDate s).getD 0

theorem sortInsert_perm (x : String) (l : List String) :
    (sortInsert x l).Perm (x :: l) := by
  induction l with
  | nil => exact List.Perm.refl _
  | cons y ys ih =>
    rw [sortInsert]
    by_cases h : dateLe x y
    · rw [if_pos h]
    · rw [if_neg h]
      exact (ih.cons y).trans (List.Perm.swap x y ys)

theorem sortDates_perm (l : List String) : (sortDates l).Perm l := by
  induction l with
  | nil => exact List.Perm.refl _
  | cons x xs ih =>
    rw [sortDates]
    exact (sortInsert_perm x (sortDates xs)).trans (ih.cons x)

theorem dateLe_total (a b : String) : dateLe a b = true ∨ dateLe b a = true := by
  unfold dateLe
  cases parseDate a <;> cases parseDate b <;> simp [Nat.le_total]

theorem dateLe_iff_of_parsable {a b : String} (ha : (parseDate a).isSome)
    (hb : (parseDate b).isSome) : dateLe a b = true ↔ dateVal a ≤ dateVal b := by
  unfold dateLe dateVal
  cases hpa : parseDate a with
  | none => rw [hpa] at ha; exact absurd ha (by simp)
  | some x =>
    cases hpb : parseDate b with
    | none => rw [hpb] at hb; exact absurd hb (by simp)
    | some y => simp

/-- An unparsable key compares equal to every key: the comparator value
is NaN, which `Array.prototype.sort` treats as `0`. -/
theorem dateLe_of_unparsable {a : String} (b : String) (ha : parseDate a = none) :
    dateLe a b = true ∧ dateLe b a = true := by
  unfold dateLe
  rw [ha]
  cases parseDate b <;> simp

theorem sortInsert_pairwise {x : String} {l : List String}
    (hx : (parseDate x).isSome) (hl : ∀ y ∈ l, (parseDate y).isSome)
    (h : l.Pairwise fun a b => dateVal a ≤ dateVal b) :
    (sortInsert x l).Pairwise fun a b => dateVal a ≤ dateVal b := by
  induction l with
  | nil => simp [sortInsert]
  | cons y ys ih =>
    have hy : (parseDate y).isSome := hl y (by simp)
    have hys : ∀ z ∈ ys, (parseDate z).isSome := fun z hz => hl z (by simp [hz])
    rcases List.pairwise_cons.mp h with ⟨hyz, hpys⟩
    rw [sortInsert]
    by_cases hle : dateLe x y
    · rw [if_pos hle]
      refine List.pairwise_cons.mpr ⟨?_, h⟩
      intro z hz
      rcases List.mem_cons.mp hz with hzy | hzys
      · exact hzy ▸ (dateLe_iff_of_parsable hx hy).mp hle
      · exact le_trans ((dateLe_iff_of_parsable hx hy).mp hle) (hyz z hzys)
    · rw [if_neg hle]
      refine List.pairwise_cons.mpr ⟨?_, ih hys hpys⟩
      intro z hz
      rcases List.mem_cons.mp ((sortInsert_perm x ys).mem_iff.mp hz) with hzx | hzys
      · subst hzx
        have : dateLe y z = true := by
          rcases dateLe_total z y with h' | h'
          · exact absurd h' hle
          · exact h'
        exact (dateLe_iff_of_parsable hy hx).mp this
      · exact hyz z hzys

theorem sortDates_pairwise {l : List String}
    (hl : ∀ y ∈ l, (parseDate y).isSome) :
    (sortDates l).Pairwise fun a b => dateVal a ≤ dateVal b := by
  induction l with
  | nil => simp [sortDates]
  | cons x xs ih =>
    rw [sortDates]
    have hxs : ∀ y ∈ xs, (parseDate y).isSome := fun y hy => hl y (by simp [hy])
    exact sortInsert_pairwise (hl x (by simp))
      (fun y hy => hxs y ((sortDates_perm xs).mem_iff.mp hy)) (ih hxs)

/-- The `dates` axis of the Builder's output, as a function of the input
alone: empty for an empty input, otherwise the sorted keys.  In
particular it does not depend on the model id or the dataset filter. -/
theorem processChartData_dates (evalData : IdentityEvalData)
    (selectedDataset modelId : String) :
    (processChartData evalData selectedDataset modelId).dates =
      if evalData.isEmpty then [] else sortDates (evalData.map Prod.fst) := by
  unfold processChartData
  split <;> rfl

/-! ## Claims C1 and C2: the date axis -/

/-- The placement the spec claims for malformed date keys, in the spec's
words: every key whose date is unparsable comes after every parsable key
in the axis. -/
def unparsableKeysLast (dates : List String) : Prop :=
  ∀ i j : Fin dates.length,
    parseDate (dates.get i) = none → (parseDate (dates.get j)).isSome →
      (j : Nat) < (i : Nat)

/-- A two-key input whose first key is unparsable, used to settle C1. -/
def evMalformed : IdentityEvalData :=
  [("bad", [⟨1, "m1", "AIME24", "AIME 2024", "acc", 0.5, "all", 30, "bad", "", ""⟩]),
   ("2024-01-01", [⟨2, "m1", "AIME24", "AIME 2024", "acc", 0.8, "all", 30, "2024-01-01", "", ""⟩])]

/-- C1, counterexample: on `evMalformed` the Builder returns the axis
`["bad", "2024-01-01"]` — the unparsable key is placed *before* the
parsable one, because the NaN comparator result counts as equality and
the stable sort keeps the input order, refuting "the unparsable keys are
placed after all parsable keys". -/
theorem claim_C1_counterexample :
    (processChartData evMalformed "all" "m1").dates = ["bad", "2024-01-01"] ∧
    ¬ unparsableKeysLast (processChartData evMalformed "all" "m1").dates := by
  constructor
  · rfl
  · rw [show (processChartData evMalformed "all" "m1").dates = ["bad", "2024-01-01"] from rfl]
    intro h
    exact absurd (h ⟨0, by decide⟩ ⟨1, by decide⟩ (by decide) (by decide)) (by decide)

/-- C1 as amended: for every input the Builder is total and loses no
key — the returned axis is a permutation of the input keys — and an
unparsable key compares equal to every key (its comparator value is NaN,
treated as 0), so the stable sort leaves it in its input-relative
position instead of placing it after all parsable keys. -/
theorem claim_C1_amended (evalData : IdentityEvalData) (selectedDataset modelId : String) :
    (processChartData evalData selectedDataset modelId).dates.Perm (evalData.map Prod.fst) ∧
    ∀ a b : String, parseDate a = none → dateLe a b = true ∧ dateLe b a = true := by
  constructor
  · rw [processChartData_dates]
    cases h : evalData.isEmpty
    · rw [if_neg (by simp [h])]
      exact sortDates_perm _
    · rw [if_pos (by simp [h]), List.isEmpty_iff.mp h]
      exact List.Perm.refl _
  · intro a b ha
    exact dateLe_of_unparsable b ha

theorem claim_C1_amended_witness :
    parseDate "bad" = none ∧
    (processChartData evMalformed "all" "m1").dates.Perm (evMalformed.map Prod.fst) ∧
    dateLe "bad" "2024-01-01" = true ∧ dateLe "2024-01-01" "bad" = true :=
  ⟨by decide, (claim_C1_amended evMalformed "all" "m1").1,
   (claim_C1_amended evMalformed "all" "m1").2 "bad" "2024-01-01" (by decide)⟩

/-- C2: when every input key parses, the returned `dates` axis is a
permutation of the input keys sorted ascending by parsed calendar date —
by date value, not lexically. -/
theorem claim_C2 (evalData : IdentityEvalData) (selectedDataset modelId : String)
    (hne : evalData ≠ [])
    (hp : ∀ k ∈ evalData.map Prod.fst, (parseDate k).isSome) :
    (processChartData evalData selectedDataset modelId).dates.Perm (evalData.map Prod.fst) ∧
    (processChartData evalData selectedDataset modelId).dates.Pairwise
      fun a b => dateVal a ≤ dateVal b := by
  have hemp : evalData.isEmpty = false := by
    cases evalData
    · exact absurd rfl hne
    · rfl
  rw [processChartData_dates]
  simp only [hemp, Bool.false_eq_true, if_false]
  exact ⟨sortDates_perm _, sortDates_pairwise hp⟩

/-- A non-padded key `"2024-1-2"` that sorts lexically *after*
`"2024-01-10"` but chronologically before it. -/
def evNonPadded : IdentityEvalData :=
  [("2024-01-10", [⟨1, "m1", "AIME24", "AIME 2024", "acc", 0.5, "all", 30, "2024-01-10", "", ""⟩]),
   ("2024-1-2", [⟨2, "m1", "AIME24", "AIME 2024", "acc", 0.8, "all", 30, "2024-1-2", "", ""⟩])]

theorem claim_C2_witness :
    (evNonPadded ≠ [] ∧ ∀ k ∈ evNonPadded.map Prod.fst, (parseDate k).isSome) ∧
    (processChartData evNonPadded "all" "m1").dates.Perm (evNonPadded.map Prod.fst) ∧
    (processChartData evNonPadded "all" "m1").dates.Pairwise
      (fun a b => dateVal a ≤ dateVal b) ∧
    (processChartData evNonPadded "all" "m1").dates = ["2024-1-2", "2024-01-10"] :=
  ⟨⟨List.cons_ne_nil _ _, by decide⟩,
   (claim_C2 evNonPadded "all" "m1" (List.cons_ne_nil _ _) (by decide)).1,
   (claim_C2 evNonPadded "all" "m1" (List.cons_ne_nil _ _) (by decide)).2,
   rfl⟩

/-! ## First pass: which series exist

The first pass of the Builder (lines 143-159) registers, in first-appearance
order while scanning the sorted axis, one series per distinct dataset key
among the results that pass the filter.  `addKeys` is that pass
re-expressed over the flattened stream of passing keys, and `firstOccur`
is its key sequence in closed form. -/

/-- Fold `addSeriesEntry` over a stream of dataset keys. -/
def addKeys (n : Nat) (ks : List String) (m : SeriesMap) : SeriesMap :=
  ks.foldl (addSeriesEntry n) m

/-- The distinct elements of `ks` not in `seen`, in first-appearance order. -/
def firstOccur (seen : List String) : List String → List String
  | [] => []
  | k :: ks => if k ∈ seen then firstOccur seen ks else k :: firstOccur (k :: seen) ks

theorem lookup_isSome_iff {β : Type} (k : String) (m : List (String × β)) :
    (List.lookup k m).isSome ↔ k ∈ m.map Prod.fst := by
  induction m with
  | nil => simp
  | cons e m ih =>
    rcases e with ⟨k', v⟩
    rw [show List.lookup k ((k', v) :: m) = if k == k' then some v else List.lookup k m
        from by rw [List.lookup_cons]; split <;> simp_all]
    by_cases h : k = k'
    · simp [h]
    · simp only [List.map_cons, List.mem_cons]
      rw [if_neg (by simp [h])]
      simp [ih, h]

theorem firstOccur_congr {seen seen' : List String} (ks : List String)
    (h : ∀ x, x ∈ seen ↔ x ∈ seen') : firstOccur seen ks = firstOccur seen' ks := by
  induction ks generalizing seen seen' with
  | nil => rfl
  | cons k ks ih =>
    rw [firstOccur, firstOccur]
    by_cases hk : k ∈ seen
    · rw [if_pos hk, if_pos ((h k).mp hk)]
      exact ih h
    · rw [if_neg hk, if_neg (fun hc => hk ((h k).mpr hc))]
      exact congrArg _ (ih fun x => by simp [h x])

theorem firstOccur_mem {seen ks : List String} {x : String} :
    x ∈ firstOccur seen ks ↔ x ∈ ks ∧ x ∉ seen := by
  induction ks generalizing seen with
  | nil => simp [firstOccur]
  | cons k ks ih =>
    rw [firstOccur]
    by_cases hk : k ∈ seen
    · rw [if_pos hk]
      simp only [ih, List.mem_cons]
      constructor
      · exact fun ⟨h1, h2⟩ => ⟨Or.inr h1, h2⟩
      · rintro ⟨h1 | h1, h2⟩
        · exact absurd (h1 ▸ hk) h2
        · exact ⟨h1, h2⟩
    · rw [if_neg hk]
      simp only [List.mem_cons, ih]
      constructor
      · rintro (rfl | ⟨h1, h2⟩)
        · exact ⟨Or.inl rfl, hk⟩
        · exact ⟨Or.inr h1, fun hc => h2 (Or.inr hc)⟩
      · rintro ⟨rfl | h1, h2⟩
        · exact Or.inl rfl
        · by_cases hx : x = k
          · exact Or.inl hx
          · exact Or.inr ⟨h1, by simp [hx, h2]⟩

theorem firstOccur_nodup (seen ks : List String) : (firstOccur seen ks).Nodup := by
  induction ks generalizing seen with
  | nil => simp [firstOccur]
  | cons k ks ih =>
    rw [firstOccur]
    by_cases hk : k ∈ seen
    · rw [if_pos hk]; exact ih seen
    · rw [if_neg hk]
      refine List.nodup_cons.mpr ⟨fun hc => ?_, ih (k :: seen)⟩
      exact (firstOccur_mem.mp hc).2 (List.mem_cons_self k seen)

theorem addKeys_eq (n : Nat) (ks : List String) (m : SeriesMap) :
    addKeys n ks m =
      m ++ (firstOccur (m.map Prod.fst) ks).map
        (fun k => (k, ⟨k, List.replicate n none, k⟩)) := by
  induction ks generalizing m with
  | nil => simp [addKeys, firstOccur]
  | cons k ks ih =>
    have hstep : addKeys n (k :: ks) m = addKeys n ks (addSeriesEntry n m k) := rfl
    rw [hstep, firstOccur]
    by_cases hk : k ∈ m.map Prod.fst
    · rw [if_pos hk]
      rw [show addSeriesEntry n m k = m from
        by rw [addSeriesEntry, if_pos ((lookup_isSome_iff k m).mpr hk)]]
      exact ih m
    · rw [if_neg hk]
      rw [show addSeriesEntry n m k = m ++ [(k, ⟨k, List.replicate n none, k⟩)] from
        by rw [addSeriesEntry, if_neg fun hc => hk ((lookup_isSome_iff k m).mp hc)]]
      rw [ih]
      rw [show ((m ++ [(k, (⟨k, List.replicate n none, k⟩ : Series))]).map Prod.fst)
            = m.map Prod.fst ++ [k] from by simp]
      rw [show firstOccur (m.map Prod.fst ++ [k]) ks = firstOccur (k :: m.map Prod.fst) ks
        from firstOccur_congr ks (by intro x; simp [or_comm])]
      simp

theorem addAtDate_eq (modelId selectedDataset : String) (n : Nat)
    (rs : List ModelTestResult) (m : SeriesMap) :
    addAtDate modelId selectedDataset n rs m =
      addKeys n ((rs.filter (matchesFilter modelId selectedDataset)).map
        (fun r => r.dataset_key)) m := by
  induction rs generalizing m with
  | nil => rfl
  | cons r rs ih =>
    rw [show addAtDate modelId selectedDataset n (r :: rs) m
        = addAtDate modelId selectedDataset n rs
            (if matchesFilter modelId selectedDataset r then
              addSeriesEntry n m r.dataset_key else m) from rfl]
    rw [List.filter_cons]
    by_cases h : matchesFilter modelId selectedDataset r
    · rw [if_pos h, if_pos h, List.map_cons]
      rw [ih]
      rfl
    · rw [if_neg h, if_neg h]
      exact ih m

theorem addKeys_append (n : Nat) (ks1 ks2 : List String) (m : SeriesMap) :
    addKeys n (ks1 ++ ks2) m = addKeys n ks2 (addKeys n ks1 m) :=
  List.foldl_append _ _ _ _

theorem build_fold_eq (evalData : IdentityEvalData) (modelId selectedDataset : String)
    (n : Nat) (dates : List String) (m : SeriesMap) :
    dates.foldl (fun m date =>
        addAtDate modelId selectedDataset n (resultsAt evalData date) m) m =
      addKeys n (((dates.flatMap (resultsAt evalData)).filter
        (matchesFilter modelId selectedDataset)).map (fun r => r.dataset_key)) m := by
  induction dates generalizing m with
  | nil => rfl
  | cons d ds ih =>
    rw [List.foldl_cons, ih, List.flatMap_cons, List.filter_append, List.map_append,
      addKeys_append, addAtDate_eq]

/-! ## Second pass: slot values

The second pass (lines 162-174) writes every passing result's score into
its series' slot at that date's axis index.  `setSlot` and `fillAtDate`
are maps over the series map, so the pass factors through a per-entry
function `fillEntry`; the writes that reach one entry's slot are exactly
the date's `matchList`, applied in order by `applyWrites`, so a collision
resolves to the last write. -/

/-- The per-entry effect of one date of the second pass at axis index
`i`, for the entry stored under `k`. -/
def fillEntry (modelId selectedDataset : String) (i : Nat)
    (rs : List ModelTestResult) (k : String) (s : Series) : Series :=
  rs.foldl
    (fun s r =>
      if matchesFilter modelId selectedDataset r && (k == r.dataset_key) then
        { s with data := s.data.set i (some r.score) }
      else s)
    s

/-- The results of one date that pass the filter and belong to the series
stored under `k`: the writes that hit that series' slot for the date. -/
def matchList (modelId selectedDataset k : String)
    (rs : List ModelTestResult) : List ModelTestResult :=
  rs.filter fun r => matchesFilter modelId selectedDataset r && (k == r.dataset_key)

/-- Overwrite slot `i` once per result, in order. -/
def applyWrites (i : Nat) (rs : List ModelTestResult) (s : Series) : Series :=
  rs.foldl (fun s r => { s with data := s.data.set i (some r.score) }) s

theorem fillAtDate_eq_map (modelId selectedDataset : String) (i : Nat)
    (rs : List ModelTestResult) (m : SeriesMap) :
    fillAtDate modelId selectedDataset i rs m =
      m.map fun e => (e.1, fillEntry modelId selectedDataset i rs e.1 e.2) := by
  induction rs generalizing m with
  | nil =>
    show m = m.map fun e => (e.1, e.2)
    exact (List.map_id m).symm
  | cons r rs ih =>
    rw [show fillAtDate modelId selectedDataset i (r :: rs) m
        = fillAtDate modelId selectedDataset i rs
            (if matchesFilter modelId selectedDataset r then
              setSlot m r.dataset_key i r.score else m) from rfl]
    by_cases h : matchesFilter modelId selectedDataset r
    · rw [if_pos h, ih, setSlot, List.map_map]
      refine List.map_congr_left fun e he => ?_
      show (fun e => (e.1, fillEntry modelId selectedDataset i rs e.1 e.2))
          (if e.1 == r.dataset_key then
            (e.1, { e.2 with data := e.2.data.set i (some r.score) }) else e)
        = (e.1, fillEntry modelId selectedDataset i (r :: rs) e.1 e.2)
    -- `fillEntry` over `r :: rs` first applies (or skips) `r`'s write:
      rw [show fillEntry modelId selectedDataset i (r :: rs) e.1 e.2
          = fillEntry modelId selectedDataset i rs e.1
              (if matchesFilter modelId selectedDataset r && (e.1 == r.dataset_key) then
                { e.2 with data := e.2.data.set i (some r.score) }
              else e.2) from rfl]
      by_cases hk : e.1 == r.dataset_key
      · rw [if_pos hk, if_pos (by rw [h, hk]; rfl)]
      · rw [if_neg hk, if_neg (by rw [h, Bool.true_and]; exact hk)]
    · rw [if_neg h, ih]
      refine List.map_congr_left fun e he => ?_
      rw [show fillEntry modelId selectedDataset i (r :: rs) e.1 e.2
          = fillEntry modelId selectedDataset i rs e.1
              (if matchesFilter modelId selectedDataset r && (e.1 == r.dataset_key) then
                { e.2 with data := e.2.data.set i (some r.score) }
              else e.2) from rfl]
      rw [if_neg (by simp [h])]

theorem fill_fold_eq (evalData : IdentityEvalData) (modelId selectedDataset : String)
    (ps : List (Nat × String)) (m : SeriesMap) :
    ps.foldl (fun m p =>
        fillAtDate modelId selectedDataset p.1 (resultsAt evalData p.2) m) m =
      m.map fun e =>
        (e.1, ps.foldl (fun s p =>
          fillEntry modelId selectedDataset p.1 (resultsAt evalData p.2) e.1 s) e.2) := by
  induction ps generalizing m with
  | nil =>
    show m = m.map fun e => (e.1, e.2)
    exact (List.map_id m).symm
  | cons p ps ih =>
    rw [List.foldl_cons, ih, fillAtDate_eq_map, List.map_map]
    exact List.map_congr_left fun e he => rfl

theorem fillEntry_eq (modelId selectedDataset : String) (i : Nat)
    (rs : List ModelTestResult) (k : String) (s : Series) :
    fillEntry modelId selectedDataset i rs k s =
      applyWrites i (matchList modelId selectedDataset k rs) s := by
  induction rs generalizing s with
  | nil => rfl
  | cons r rs ih =>
    rw [show fillEntry modelId selectedDataset i (r :: rs) k s
        = fillEntry modelId selectedDataset i rs k
            (if matchesFilter modelId selectedDataset r && (k == r.dataset_key) then
              { s with data := s.data.set i (some r.score) }
            else s) from rfl]
    rw [matchList, List.filter_cons]
    by_cases h : matchesFilter modelId selectedDataset r && (k == r.dataset_key)
    · rw [if_pos h, if_pos h]
      rw [show applyWrites i (r :: List.filter _ rs) s
          = applyWrites i (List.filter _ rs)
              { s with data := s.data.set i (some r.score) } from rfl]
      exact ih _
    · rw [if_neg h, if_neg h]
      exact ih s

theorem applyWrites_length (i : Nat) (rs : List ModelTestResult) (s : Series) :
    (applyWrites i rs s).data.length = s.data.length := by
  induction rs generalizing s with
  | nil => rfl
  | cons r rs ih =>
    rw [show applyWrites i (r :: rs) s
        = applyWrites i rs { s with data := s.data.set i (some r.score) } from rfl, ih]
    exact List.length_set _ _ _

theorem applyWrites_datasetKey (i : Nat) (rs : List ModelTestResult) (s : Series) :
    (applyWrites i rs s).datasetKey = s.datasetKey := by
  induction rs generalizing s with
  | nil => rfl
  | cons r rs ih =>
    rw [show applyWrites i (r :: rs) s
        = applyWrites i rs { s with data := s.data.set i (some r.score) } from rfl, ih]

theorem applyWrites_getElem_ne (i j : Nat) (rs : List ModelTestResult) (s : Series)
    (h : i ≠ j) : (applyWrites i rs s).data[j]? = s.data[j]? := by
  induction rs generalizing s with
  | nil => rfl
  | cons r rs ih =>
    rw [show applyWrites i (r :: rs) s
        = applyWrites i rs { s with data := s.data.set i (some r.score) } from rfl, ih]
    show (s.data.set i (some r.score))[j]? = s.data[j]?
    rw [List.getElem?_set, if_neg h]

theorem applyWrites_getElem_self (i : Nat) (rs : List ModelTestResult) (s : Series)
    (hne : rs ≠ []) (hi : i < s.data.length) :
    (applyWrites i rs s).data[i]? = some (some ((rs.getLast hne).score)) := by
  induction rs generalizing s with
  | nil => exact absurd rfl hne
  | cons r rs ih =>
    cases rs with
    | nil =>
      show ({ s with data := s.data.set i (some r.score) } : Series).data[i]? = _
      show (s.data.set i (some r.score))[i]? = _
      rw [List.getElem?_set, if_pos rfl, if_pos hi]
      rfl
    | cons r2 rs2 =>
      rw [show applyWrites i (r :: r2 :: rs2) s
          = applyWrites i (r2 :: rs2) { s with data := s.data.set i (some r.score) } from rfl]
      rw [ih { s with data := s.data.set i (some r.score) } (List.cons_ne_nil r2 rs2)
        (by show i < (s.data.set i (some r.score)).length
            rw [List.length_set]; exact hi)]
      rw [List.getLast_cons (List.cons_ne_nil r2 rs2)]

theorem fill_fold_preserves (evalData : IdentityEvalData)
    (modelId selectedDataset k : String) (l : List String) (j0 i : Nat)
    (hij : i < j0) (s : Series) :
    ((List.enumFrom j0 l).foldl (fun s p =>
        applyWrites p.1 (matchList modelId selectedDataset k (resultsAt evalData p.2)) s)
      s).data[i]? = s.data[i]? := by
  induction l generalizing j0 s with
  | nil => rfl
  | cons d l ih =>
    rw [List.enumFrom_cons, List.foldl_cons, ih (j0 + 1) (by omega)]
    exact applyWrites_getElem_ne j0 i _ s (by omega)

theorem fill_fold_slot (evalData : IdentityEvalData)
    (modelId selectedDataset k : String) (l : List String) (j0 i : Nat) (s : Series)
    (hj : j0 ≤ i) (hi : i - j0 < l.length) (hs : i < s.data.length) :
    (matchList modelId selectedDataset k (resultsAt evalData (l.get ⟨i - j0, hi⟩)) = [] →
      ((List.enumFrom j0 l).foldl (fun s p =>
          applyWrites p.1 (matchList modelId selectedDataset k (resultsAt evalData p.2)) s)
        s).data[i]? = s.data[i]?) ∧
    (∀ r, (matchList modelId selectedDataset k
        (resultsAt evalData (l.get ⟨i - j0, hi⟩))).getLast? = some r →
      ((List.enumFrom j0 l).foldl (fun s p =>
          applyWrites p.1 (matchList modelId selectedDataset k (resultsAt evalData p.2)) s)
        s).data[i]? = some (some r.score)) := by
  induction l generalizing j0 s with
  | nil => exact absurd hi (by simp)
  | cons d l ih =>
    rw [List.enumFrom_cons, List.foldl_cons]
    by_cases hij : i = j0
    · subst hij
      have h0 : i - i = 0 := by omega
      simp only [h0]
      rw [show (d :: l).get ⟨0, by simp⟩ = d from rfl]
      rw [fill_fold_preserves evalData modelId selectedDataset k l (i + 1) i (by omega)]
      constructor
      · intro hnil
        rw [hnil]
        rfl
      · intro r hr
        have hne : matchList modelId selectedDataset k (resultsAt evalData d) ≠ [] := by
          intro hc
          rw [hc] at hr
          cases hr
        rw [applyWrites_getElem_self i _ s hne hs]
        rw [List.getLast?_eq_getLast _ hne] at hr
        rw [Option.some_inj.mp hr]
    · have hlen : (d :: l).length = l.length + 1 := rfl
      have hj1 : j0 + 1 ≤ i := by omega
      have harr : i - j0 = (i - (j0 + 1)) + 1 := by omega
      have hi1 : i - (j0 + 1) < l.length := by omega
      have hget : (d :: l).get ⟨i - j0, hi⟩ = l.get ⟨i - (j0 + 1), hi1⟩ := by
        simp only [harr]
        rfl
      rw [hget]
      have hs1 : i <
          (applyWrites j0 (matchList modelId selectedDataset k (resultsAt evalData d)) s).data.length := by
        rw [applyWrites_length]
        exact hs
      have hpres :
          (applyWrites j0 (matchList modelId selectedDataset k (resultsAt evalData d)) s).data[i]?
            = s.data[i]? :=
        applyWrites_getElem_ne j0 i _ s (by omega)
      rcases ih (j0 + 1) _ hj1 hi1 hs1 with ⟨ihn, ihs⟩
      constructor
      · intro hnil
        rw [ihn hnil, hpres]
      · exact ihs

theorem foldl_congr_fun {α β : Type} (l : List α) (f g : β → α → β) (b : β)
    (h : ∀ s a, f s a = g s a) : l.foldl f b = l.foldl g b := by
  induction l generalizing b with
  | nil => rfl
  | cons a l ih =>
    rw [List.foldl_cons, List.foldl_cons, h]
    exact ih _

theorem fill_fold_length (evalData : IdentityEvalData)
    (modelId selectedDataset k : String) (l : List String) (j0 : Nat) (s : Series) :
    ((List.enumFrom j0 l).foldl (fun s p =>
        applyWrites p.1 (matchList modelId selectedDataset k (resultsAt evalData p.2)) s)
      s).data.length = s.data.length := by
  induction l generalizing j0 s with
  | nil => rfl
  | cons d l ih =>
    rw [List.enumFrom_cons, List.foldl_cons, ih (j0 + 1)]
    exact applyWrites_length _ _ _

theorem fill_fold_datasetKey (evalData : IdentityEvalData)
    (modelId selectedDataset k : String) (l : List String) (j0 : Nat) (s : Series) :
    ((List.enumFrom j0 l).foldl (fun s p =>
        applyWrites p.1 (matchList modelId selectedDataset k (resultsAt evalData p.2)) s)
      s).datasetKey = s.datasetKey := by
  induction l generalizing j0 s with
  | nil => rfl
  | cons d l ih =>
    rw [List.enumFrom_cons, List.foldl_cons, ih (j0 + 1)]
    exact applyWrites_datasetKey _ _ _

/-- The dataset keys of the passing results, in axis scan order: the
insertion sequence of the `seriesMap`. -/
def passingKeys (evalData : IdentityEvalData) (modelId selectedDataset : String)
    (dates : List String) : List String :=
  ((dates.flatMap (resultsAt evalData)).filter
    (matchesFilter modelId selectedDataset)).map fun r => r.dataset_key

/-- Closed form of the Builder on a non-empty input: the axis is the
sorted keys; one series per distinct passing dataset key in
first-appearance order, each the null-filled fresh series with every
date's matching writes applied at that date's axis index. -/
theorem processChartData_eq (evalData : IdentityEvalData)
    (selectedDataset modelId : String) (hne : evalData.isEmpty = false) :
    processChartData evalData selectedDataset modelId =
      ⟨sortDates (evalData.map Prod.fst),
       (firstOccur [] (passingKeys evalData modelId selectedDataset
          (sortDates (evalData.map Prod.fst)))).map fun k =>
         (List.enumFrom 0 (sortDates (evalData.map Prod.fst))).foldl
           (fun s p =>
             applyWrites p.1
               (matchList modelId selectedDataset k (resultsAt evalData p.2)) s)
           ⟨k, List.replicate (sortDates (evalData.map Prod.fst)).length none, k⟩⟩ := by
  unfold processChartData
  rw [if_neg (by simp [hne])]
  show ChartData.mk _ _ = _
  rw [build_fold_eq, addKeys_eq]
  rw [show List.enum (sortDates (evalData.map Prod.fst))
      = List.enumFrom 0 (sortDates (evalData.map Prod.fst)) from rfl]
  rw [fill_fold_eq]
  rw [List.nil_append, List.map_map, List.map_map]
  refine congrArg _ ?_
  refine List.map_congr_left fun k hk => ?_
  show (List.enumFrom 0 (sortDates (evalData.map Prod.fst))).foldl
      (fun s p => fillEntry modelId selectedDataset p.1 (resultsAt evalData p.2) k s)
      ⟨k, List.replicate (sortDates (evalData.map Prod.fst)).length none, k⟩ = _
  exact foldl_congr_fun _ _ _ _ fun s p => fillEntry_eq _ _ _ _ _ _

/-! ## Claims C3, C4, C5: series shape and slot contents -/

/-- C3: every series is exactly as long as the date axis, and a date at
which no result passes the model/dataset filter leaves the slot holding
the absent marker `none` — never `0`. -/
theorem claim_C3 (evalData : IdentityEvalData) (selectedDataset modelId : String)
    (s : Series)
    (hs : s ∈ (processChartData evalData selectedDataset modelId).series) :
    s.data.length = (processChartData evalData selectedDataset modelId).dates.length ∧
    ∀ (i : Nat) (hi : i < (processChartData evalData selectedDataset modelId).dates.length),
      (∀ r ∈ resultsAt evalData
          ((processChartData evalData selectedDataset modelId).dates.get ⟨i, hi⟩),
        matchesFilter modelId selectedDataset r = false) →
      s.data[i]? = some none := by
  cases hev : evalData.isEmpty
  · rw [processChartData_eq evalData selectedDataset modelId hev] at hs ⊢
    rcases List.mem_map.mp hs with ⟨k, hk, hfold⟩
    constructor
    · rw [← hfold, fill_fold_length]
      exact (List.length_replicate _ _).trans rfl
    · intro i hi hnone
      have hmatch : matchList modelId selectedDataset k
          (resultsAt evalData
            ((sortDates (evalData.map Prod.fst)).get ⟨i, hi⟩)) = [] :=
        List.filter_eq_nil_iff.mpr fun r hr => by
          rw [hnone r hr]
          simp
      have hslot := (fill_fold_slot evalData modelId selectedDataset k
        (sortDates (evalData.map Prod.fst)) 0 i
        ⟨k, List.replicate (sortDates (evalData.map Prod.fst)).length none, k⟩
        (Nat.zero_le i) hi
        (by rw [List.length_replicate]; exact hi)).1 hmatch
      rw [← hfold, hslot]
      rw [List.getElem?_replicate, if_pos hi]
  · rw [show processChartData evalData selectedDataset modelId = ⟨[], []⟩ from
      by rw [processChartData]; rw [if_pos (by simp [hev])]] at hs
    exact absurd hs (by simp)

/-- C5: when several passing results collide on the same series key and
date, the slot receives the score of the last one in that date's result
collection — last write wins — and the Builder is total. -/
theorem claim_C5 (evalData : IdentityEvalData) (selectedDataset modelId : String)
    (s : Series) (i : Nat) (d : String) (r : ModelTestResult)
    (hs : s ∈ (processChartData evalData selectedDataset modelId).series)
    (hd : (processChartData evalData selectedDataset modelId).dates[i]? = some d)
    (hlast : (matchList modelId selectedDataset s.datasetKey
        (resultsAt evalData d)).getLast? = some r) :
    s.data[i]? = some (some r.score) := by
  cases hev : evalData.isEmpty
  · rw [processChartData_eq evalData selectedDataset modelId hev] at hs hd
    rcases List.mem_map.mp hs with ⟨k, hk, hfold⟩
    have hkey : s.datasetKey = k := by
      rw [← hfold, fill_fold_datasetKey]
    rw [hkey] at hlast
    rcases List.getElem?_eq_some.mp hd with ⟨hi, hget⟩
    rw [← hget] at hlast
    have hslot := (fill_fold_slot evalData modelId selectedDataset k
      (sortDates (evalData.map Prod.fst)) 0 i
      ⟨k, List.replicate (sortDates (evalData.map Prod.fst)).length none, k⟩
      (Nat.zero_le i) hi
      (by rw [List.length_replicate]; exact hi)).2 r hlast
    rw [← hfold, hslot]
  · rw [show processChartData evalData selectedDataset modelId = ⟨[], []⟩ from
      by rw [processChartData]; rw [if_pos (by simp [hev])]] at hs
    exact absurd hs (by simp)

theorem firstOccur_length (ks : List String) :
    (firstOccur [] ks).length = ks.toFinset.card := by
  rw [← List.toFinset_card_of_nodup (firstOccur_nodup [] ks)]
  congr 1
  ext x
  simp [List.mem_toFinset, firstOccur_mem]

theorem perm_toFinset (l1 l2 : List String) (h : l1.Perm l2) :
    l1.toFinset = l2.toFinset := by
  ext x
  simp [List.mem_toFinset, h.mem_iff]

/-- With pairwise-distinct keys — every JS object — walking the keys and
reading back `evalData[key]` reproduces exactly the stored result lists. -/
theorem flatMap_resultsAt (evalData : IdentityEvalData)
    (hnd : (evalData.map Prod.fst).Nodup) :
    (evalData.map Prod.fst).flatMap (resultsAt evalData) = evalData.flatMap Prod.snd := by
  induction evalData with
  | nil => rfl
  | cons e evalData ih =>
    rcases e with ⟨k0, v0⟩
    rcases List.nodup_cons.mp hnd with ⟨hk0, hnd2⟩
    rw [List.map_cons, List.flatMap_cons, List.flatMap_cons]
    have h1 : resultsAt ((k0, v0) :: evalData) k0 = v0 := by
      rw [resultsAt, List.lookup_cons]
      simp
    rw [h1, ← ih hnd2]
    refine congrArg _ (List.flatMap_congr fun k hk => ?_)
    have hne : (k == k0) = false := by
      simp only [List.map_cons] at hk0
      exact beq_eq_false_iff_ne.mpr fun hc => hk0 (hc ▸ hk)
    rw [resultsAt, resultsAt, List.lookup_cons]
    simp [hne]

/-- C4: the number of series equals the number of distinct dataset keys
among the results that pass the model/dataset filter; a filter passing
nothing yields no series at all, and the date axis never depends on the
filters. -/
theorem claim_C4 (evalData : IdentityEvalData) (selectedDataset modelId : String)
    (hnd : (evalData.map Prod.fst).Nodup) :
    (processChartData evalData selectedDataset modelId).series.length =
      (((evalData.flatMap Prod.snd).filter (matchesFilter modelId selectedDataset)).map
        (fun r => r.dataset_key)).toFinset.card ∧
    ((∀ r ∈ evalData.flatMap Prod.snd,
        matchesFilter modelId selectedDataset r = false) →
      (processChartData evalData selectedDataset modelId).series = []) ∧
    ∀ selectedDataset2 modelId2,
      (processChartData evalData selectedDataset modelId).dates =
        (processChartData evalData selectedDataset2 modelId2).dates := by
  have hperm : (passingKeys evalData modelId selectedDataset
        (sortDates (evalData.map Prod.fst))).Perm
      (((evalData.flatMap Prod.snd).filter (matchesFilter modelId selectedDataset)).map
        fun r => r.dataset_key) := by
    rw [passingKeys, ← flatMap_resultsAt evalData hnd]
    exact (((sortDates_perm (evalData.map Prod.fst)).flatMap_right
      (resultsAt evalData)).filter _).map _
  refine ⟨?_, ?_, ?_⟩
  · cases hev : evalData.isEmpty
    · rw [processChartData_eq evalData selectedDataset modelId hev]
      show ((firstOccur [] _).map _).length = _
      rw [List.length_map, firstOccur_length, perm_toFinset _ _ hperm]
    · rw [show processChartData evalData selectedDataset modelId = ⟨[], []⟩ from
        by rw [processChartData]; rw [if_pos (by simp [hev])]]
      rw [List.isEmpty_iff.mp hev]
      rfl
  · intro hall
    cases hev : evalData.isEmpty
    · rw [processChartData_eq evalData selectedDataset modelId hev]
      show (firstOccur [] _).map _ = []
      have hpk : passingKeys evalData modelId selectedDataset
          (sortDates (evalData.map Prod.fst)) = [] := by
        rw [passingKeys]
        rw [List.filter_eq_nil_iff.mpr fun r hr => ?_]
        · rfl
        · have : r ∈ evalData.flatMap Prod.snd := by
            rw [← flatMap_resultsAt evalData hnd]
            exact ((sortDates_perm (evalData.map Prod.fst)).flatMap_right
              (resultsAt evalData)).mem_iff.mp hr
          rw [hall r this]
          simp
      rw [hpk]
      rfl
    · rw [show processChartData evalData selectedDataset modelId = ⟨[], []⟩ from
        by rw [processChartData]; rw [if_pos (by simp [hev])]]
  · intro selectedDataset2 modelId2
    rw [processChartData_dates, processChartData_dates]

/-- Two dates where only the first has a result for model `m1`: the
second slot of `m1`'s series must keep the absent marker. -/
def evGap : IdentityEvalData :=
  [("2024-01-01", [⟨1, "m1", "AIME24", "AIME 2024", "acc", 0.8, "all", 30, "2024-01-01", "", ""⟩]),
   ("2024-01-02", [⟨2, "m2", "AIME24", "AIME 2024", "acc", 0.5, "all", 30, "2024-01-02", "", ""⟩])]

/-- The single series the Builder returns for `m1` on `evGap`. -/
def sGap : Series := ⟨"AIME24", [some 0.8, none], "AIME24"⟩

theorem claim_C3_witness :
    sGap ∈ (processChartData evGap "all" "m1").series ∧
    sGap.data.length = (processChartData evGap "all" "m1").dates.length ∧
    sGap.data[1]? = some none := by
  have hmem : sGap ∈ (processChartData evGap "all" "m1").series :=
    List.mem_singleton.mpr rfl
  have h := claim_C3 evGap "all" "m1" sGap hmem
  exact ⟨hmem, h.1, h.2 1 (by decide) (by decide)⟩

/-- The second of two colliding results for the same `(model, dataset,
date)`: the one whose score must win. -/
def rDup2 : ModelTestResult :=
  ⟨2, "m1", "AIME24", "AIME 2024", "acc", 0.9, "all", 30, "2024-01-01", "", ""⟩

/-- One date carrying two results that collide on `(m1, AIME24)`. -/
def evDup : IdentityEvalData :=
  [("2024-01-01",
    [⟨1, "m1", "AIME24", "AIME 2024", "acc", 0.5, "all", 30, "2024-01-01", "", ""⟩, rDup2])]

/-- The single series the Builder returns for `m1` on `evDup`. -/
def sDup : Series := ⟨"AIME24", [some 0.9], "AIME24"⟩

theorem claim_C5_witness :
    sDup ∈ (processChartData evDup "all" "m1").series ∧
    (matchList "m1" "all" sDup.datasetKey (resultsAt evDup "2024-01-01")).getLast?
      = some rDup2 ∧
    sDup.data[0]? = some (some rDup2.score) := by
  have hmem : sDup ∈ (processChartData evDup "all" "m1").series :=
    List.mem_singleton.mpr rfl
  exact ⟨hmem, rfl, claim_C5 evDup "all" "m1" sDup 0 "2024-01-01" rDup2 hmem rfl rfl⟩

/-- The spec's concrete scenario A input (two dates, one `m1`/`AIME24`
result each), here exercised with the scenario B filter
`GPQA_DIAMOND`, which matches nothing. -/
def evScenarioA : IdentityEvalData :=
  [("2024-01-02", [⟨1, "m1", "AIME24", "AIME 2024", "acc", 0.5, "all", 30, "2024-01-02", "", ""⟩]),
   ("2024-01-01", [⟨2, "m1", "AIME24", "AIME 2024", "acc", 0.8, "all", 30, "2024-01-01", "", ""⟩])]

theorem claim_C4_witness :
    (evScenarioA.map Prod.fst).Nodup ∧
    (processChartData evScenarioA "GPQA_DIAMOND" "m1").series = [] ∧
    (processChartData evScenarioA "GPQA_DIAMOND" "m1").series.length =
      (((evScenarioA.flatMap Prod.snd).filter (matchesFilter "m1" "GPQA_DIAMOND")).map
        (fun r => r.dataset_key)).toFinset.card ∧
    (processChartData evScenarioA "GPQA_DIAMOND" "m1").dates =
      (processChartData evScenarioA "all" "m1").dates := by
  have hnd : (evScenarioA.map Prod.fst).Nodup := by decide
  have h := claim_C4 evScenarioA "GPQA_DIAMOND" "m1" hnd
  exact ⟨hnd, h.2.1 (by decide), h.1, h.2.2 "all" "m1"⟩

/-! ## Claims C6-C10: the Dataset Selection Coordinator -/

theorem find?_applySuccess (models : List ModelData) (modelId : String)
    (newDatasetKeys : List String) :
    (applySuccess models modelId newDatasetKeys).find? (fun mm => mm.model_id == modelId)
      = (models.find? (fun mm => mm.model_id == modelId)).map
          (fun m => if m.model_id == modelId then
            { m with dataset_keys := newDatasetKeys } else m) := by
  induction models with
  | nil => rfl
  | cons m models ih =>
    rw [applySuccess, List.map_cons]
    by_cases h : m.model_id == modelId
    · rw [if_pos h]
      rw [show List.find? (fun mm => mm.model_id == modelId)
          ({ m with dataset_keys := newDatasetKeys } ::
            List.map (fun m => if m.model_id == modelId then
              { m with dataset_keys := newDatasetKeys } else m) models)
        = some { m with dataset_keys := newDatasetKeys } from
          by rw [List.find?_cons]; simp [h]]
      rw [show List.find? (fun mm => mm.model_id == modelId) (m :: models) = some m from
        by rw [List.find?_cons]; simp [h]]
      rw [Option.map_some']
      rw [if_pos h]
    · rw [if_neg h]
      have h' : (m.model_id == modelId) = false := by
        cases hc : (m.model_id == modelId)
        · rfl
        · exact absurd hc h
      rw [show List.find? (fun mm => mm.model_id == modelId)
          (m :: List.map (fun m => if m.model_id == modelId then
              { m with dataset_keys := newDatasetKeys } else m) models)
        = List.find? (fun mm => mm.model_id == modelId)
            (List.map (fun m => if m.model_id == modelId then
              { m with dataset_keys := newDatasetKeys } else m) models) from
          by rw [List.find?_cons]; simp [h']]
      rw [show List.find? (fun mm => mm.model_id == modelId) (m :: models)
        = List.find? (fun mm => mm.model_id == modelId) models from
          by rw [List.find?_cons]; simp [h']]
      rw [← applySuccess, ih]

theorem contains_iff_mem_keys (keys : List String) (k : String) :
    keys.contains k = true ↔ k ∈ keys := by
  rw [List.contains, List.elem_eq_mem]
  simp

/-- C6: toggling a dataset on and then off for the same model (both
updates succeeding) restores the model's `dataset_keys` as a set. -/
theorem claim_C6 (models : List ModelData) (modelId datasetKey : String) (m : ModelData)
    (hf : models.find? (fun mm => mm.model_id == modelId) = some m)
    (hk : datasetKey ∉ m.dataset_keys) :
    ∃ m2, (handleCheckboxChange
        (handleCheckboxChange models modelId datasetKey true true).finalModels
        modelId datasetKey false true).finalModels.find?
          (fun mm => mm.model_id == modelId) = some m2 ∧
      ∀ x, x ∈ m2.dataset_keys ↔ x ∈ m.dataset_keys := by
  have hpm : (m.model_id == modelId) = true := by simpa using List.find?_some hf
  have hcont : m.dataset_keys.contains datasetKey = false := by
    cases hc : m.dataset_keys.contains datasetKey
    · rfl
    · exact absurd ((contains_iff_mem_keys _ _).mp hc) hk
  have hnk1 : computeNewKeys m.dataset_keys datasetKey true
      = m.dataset_keys ++ [datasetKey] := by
    rw [computeNewKeys, if_pos (by rw [hcont]; rfl)]
  have h1 : (handleCheckboxChange models modelId datasetKey true true).finalModels
      = applySuccess models modelId (m.dataset_keys ++ [datasetKey]) := by
    rw [handleCheckboxChange, hf]
    show applySuccess models modelId (computeNewKeys m.dataset_keys datasetKey true) = _
    rw [hnk1]
  have hf1 : (applySuccess models modelId (m.dataset_keys ++ [datasetKey])).find?
      (fun mm => mm.model_id == modelId)
      = some { m with dataset_keys := m.dataset_keys ++ [datasetKey] } := by
    rw [find?_applySuccess, hf, Option.map_some', if_pos hpm]
  have hcont2 : (m.dataset_keys ++ [datasetKey]).contains datasetKey = true :=
    (contains_iff_mem_keys _ _).mpr
      (List.mem_append.mpr (Or.inr (List.mem_singleton.mpr rfl)))
  have hnk2 : computeNewKeys (m.dataset_keys ++ [datasetKey]) datasetKey false
      = m.dataset_keys := by
    rw [computeNewKeys, if_neg (by simp), if_pos (by rw [hcont2]; rfl)]
    rw [List.filter_append]
    rw [List.filter_eq_self.mpr fun x hx =>
      bne_iff_ne.mpr fun hc : x = datasetKey => hk (hc ▸ hx)]
    rw [show List.filter (fun key => key != datasetKey) [datasetKey] = [] from
      by simp]
    exact List.append_nil _
  refine ⟨m, ?_, fun x => Iff.rfl⟩
  rw [h1, handleCheckboxChange, hf1]
  show (applySuccess (applySuccess models modelId (m.dataset_keys ++ [datasetKey]))
      modelId (computeNewKeys ({ m with dataset_keys := m.dataset_keys ++ [datasetKey]}
        : ModelData).dataset_keys datasetKey false)).find?
    (fun mm => mm.model_id == modelId) = some m
  rw [show ({ m with dataset_keys := m.dataset_keys ++ [datasetKey]}
      : ModelData).dataset_keys = m.dataset_keys ++ [datasetKey] from rfl]
  rw [hnk2, find?_applySuccess, hf1, Option.map_some', if_pos hpm]

theorem claim_C6_witness :
    (([⟨"m2", "gpt-x", ["AIME24"]⟩] : List ModelData).find?
        (fun mm => mm.model_id == "m2") = some ⟨"m2", "gpt-x", ["AIME24"]⟩) ∧
    "AIME25" ∉ (["AIME24"] : List String) ∧
    ∃ m2, (handleCheckboxChange
        (handleCheckboxChange [⟨"m2", "gpt-x", ["AIME24"]⟩] "m2" "AIME25" true true).finalModels
        "m2" "AIME25" false true).finalModels.find?
          (fun mm => mm.model_id == "m2") = some m2 ∧
      ∀ x, x ∈ m2.dataset_keys ↔ x ∈ (⟨"m2", "gpt-x", ["AIME24"]⟩ : ModelData).dataset_keys :=
  ⟨rfl, by decide,
   claim_C6 [⟨"m2", "gpt-x", ["AIME24"]⟩] "m2" "AIME25" ⟨"m2", "gpt-x", ["AIME24"]⟩
     rfl (by decide)⟩

/-- C7: a toggle on an existing model sends a full snapshot — one row per
cached model, keyed by `model_name`, the toggled row carrying the new
keys and every other row its current keys — and on success rewrites the
toggled model's cache entry to the computed set. -/
theorem claim_C7 (models : List ModelData) (modelId datasetKey : String)
    (checked : Bool) (m : ModelData)
    (hf : models.find? (fun mm => mm.model_id == modelId) = some m) :
    (handleCheckboxChange models modelId datasetKey checked true).payload
      = some (models.map fun mm =>
          ⟨mm.model_name,
           if mm.model_id == modelId then computeNewKeys m.dataset_keys datasetKey checked
           else mm.dataset_keys⟩) ∧
    (handleCheckboxChange models modelId datasetKey checked true).finalModels.length
      = models.length ∧
    (∀ mm ∈ (handleCheckboxChange models modelId datasetKey checked true).finalModels,
      mm.model_id = modelId →
        mm.dataset_keys = computeNewKeys m.dataset_keys datasetKey checked) ∧
    (handleCheckboxChange models modelId datasetKey checked true).reportedSuccess = true := by
  rw [handleCheckboxChange, hf]
  refine ⟨rfl, List.length_map _ _, ?_, rfl⟩
  intro mm hmm hid
  rcases List.mem_map.mp hmm with ⟨x, hx, hfx⟩
  by_cases hxid : x.model_id == modelId
  · rw [← hfx, if_pos hxid]
  · exfalso
    rw [← hfx, if_neg hxid] at hid
    exact hxid (beq_iff_eq.mpr hid)

theorem claim_C7_witness :
    (handleCheckboxChange [⟨"m2", "gpt-x", ["AIME24"]⟩] "m2" "AIME25" true true).payload
      = some [⟨"gpt-x", ["AIME24", "AIME25"]⟩] ∧
    (∀ mm ∈ (handleCheckboxChange [⟨"m2", "gpt-x", ["AIME24"]⟩]
        "m2" "AIME25" true true).finalModels,
      mm.model_id = "m2" →
        mm.dataset_keys = computeNewKeys ["AIME24"] "AIME25" true) ∧
    (handleCheckboxChange [⟨"m2", "gpt-x", ["AIME24"]⟩]
      "m2" "AIME25" true true).reportedSuccess = true := by
  have h := claim_C7 [⟨"m2", "gpt-x", ["AIME24"]⟩] "m2" "AIME25" true
    ⟨"m2", "gpt-x", ["AIME24"]⟩ rfl
  exact ⟨h.1.trans (by decide), h.2.2.1, h.2.2.2⟩

/-- C8: when the update call fails, the cache is left exactly at its
pre-toggle value and an error — not success — is reported. -/
theorem claim_C8 (models : List ModelData) (modelId datasetKey : String)
    (checked : Bool) (m : ModelData)
    (hf : models.find? (fun mm => mm.model_id == modelId) = some m) :
    (handleCheckboxChange models modelId datasetKey checked false).finalModels = models ∧
    (handleCheckboxChange models modelId datasetKey checked false).reportedError = true ∧
    (handleCheckboxChange models modelId datasetKey checked false).reportedSuccess = false := by
  rw [handleCheckboxChange, hf]
  exact ⟨rfl, rfl, rfl⟩

theorem claim_C8_witness :
    (handleCheckboxChange [⟨"m2", "gpt-x", ["AIME24"]⟩]
      "m2" "AIME25" true false).finalModels = [⟨"m2", "gpt-x", ["AIME24"]⟩] ∧
    (handleCheckboxChange [⟨"m2", "gpt-x", ["AIME24"]⟩]
      "m2" "AIME25" true false).reportedError = true ∧
    (handleCheckboxChange [⟨"m2", "gpt-x", ["AIME24"]⟩]
      "m2" "AIME25" true false).reportedSuccess = false :=
  claim_C8 [⟨"m2", "gpt-x", ["AIME24"]⟩] "m2" "AIME25" true
    ⟨"m2", "gpt-x", ["AIME24"]⟩ rfl

/-- C9: every invocation sets the "currently updating" marker to the
toggled model id before any other work, clears it on every exit path
(success, failure, or missing model), and while it holds the model id the
model's checkboxes are disabled. -/
theorem claim_C9 (models : List ModelData) (modelId datasetKey : String)
    (checked updateSucceeds : Bool) :
    (handleCheckboxChange models modelId datasetKey checked updateSucceeds).markerDuring
      = some modelId ∧
    (handleCheckboxChange models modelId datasetKey checked updateSucceeds).markerAfter
      = none ∧
    checkboxDisabled
      (handleCheckboxChange models modelId datasetKey checked updateSucceeds).markerDuring
      modelId = true := by
  have hmd : (handleCheckboxChange models modelId datasetKey checked updateSucceeds).markerDuring
      = some modelId := by
    rw [handleCheckboxChange]
    cases hfind : models.find? (fun mm => mm.model_id == modelId) with
    | none => rfl
    | some model => cases updateSucceeds <;> rfl
  have hma : (handleCheckboxChange models modelId datasetKey checked updateSucceeds).markerAfter
      = none := by
    rw [handleCheckboxChange]
    cases hfind : models.find? (fun mm => mm.model_id == modelId) with
    | none => rfl
    | some model => cases updateSucceeds <;> rfl
  refine ⟨hmd, hma, ?_⟩
  rw [hmd]
  simp [checkboxDisabled]

/-- C10: a set-level no-op toggle (checking an already-selected dataset
or unchecking an absent one) still sends the full snapshot with the
unchanged keys, still reports success, and leaves the model's cache row
equal to what it was. -/
theorem claim_C10 (models : List ModelData) (modelId datasetKey : String)
    (checked : Bool) (m : ModelData)
    (hf : models.find? (fun mm => mm.model_id == modelId) = some m)
    (hnoop : (checked = true ∧ datasetKey ∈ m.dataset_keys) ∨
             (checked = false ∧ datasetKey ∉ m.dataset_keys)) :
    computeNewKeys m.dataset_keys datasetKey checked = m.dataset_keys ∧
    (handleCheckboxChange models modelId datasetKey checked true).payload
      = some (models.map fun mm =>
          ⟨mm.model_name,
           if mm.model_id == modelId then m.dataset_keys else mm.dataset_keys⟩) ∧
    (handleCheckboxChange models modelId datasetKey checked true).reportedSuccess = true ∧
    (handleCheckboxChange models modelId datasetKey checked true).finalModels.find?
      (fun mm => mm.model_id == modelId) = some m := by
  have hnk : computeNewKeys m.dataset_keys datasetKey checked = m.dataset_keys := by
    rcases hnoop with ⟨hc, hmem⟩ | ⟨hc, hmem⟩
    · subst hc
      have hcont : m.dataset_keys.contains datasetKey = true :=
        (contains_iff_mem_keys _ _).mpr hmem
      rw [computeNewKeys, if_neg (by rw [hcont]; simp), if_neg (by simp)]
    · subst hc
      have hcont : m.dataset_keys.contains datasetKey = false := by
        cases hc2 : m.dataset_keys.contains datasetKey
        · rfl
        · exact absurd ((contains_iff_mem_keys _ _).mp hc2) hmem
      rw [computeNewKeys, if_neg (by simp), if_neg (by rw [hcont]; simp)]
  refine ⟨hnk, ?_, ?_, ?_⟩
  · rw [handleCheckboxChange, hf]
    show some (buildPayload models modelId
      (computeNewKeys m.dataset_keys datasetKey checked)) = _
    rw [hnk]
    rfl
  · rw [handleCheckboxChange, hf]
    rfl
  · rw [handleCheckboxChange, hf]
    show (applySuccess models modelId
      (computeNewKeys m.dataset_keys datasetKey checked)).find?
        (fun mm => mm.model_id == modelId) = some m
    rw [hnk, find?_applySuccess, hf, Option.map_some', if_pos (by simpa using List.find?_some hf)]

theorem claim_C10_witness :
    computeNewKeys ["AIME24"] "AIME24" true = ["AIME24"] ∧
    (handleCheckboxChange [⟨"m2", "gpt-x", ["AIME24"]⟩] "m2" "AIME24" true true).payload
      = some [⟨"gpt-x", ["AIME24"]⟩] ∧
    (handleCheckboxChange [⟨"m2", "gpt-x", ["AIME24"]⟩]
      "m2" "AIME24" true true).reportedSuccess = true ∧
    (handleCheckboxChange [⟨"m2", "gpt-x", ["AIME24"]⟩]
      "m2" "AIME24" true true).finalModels.find? (fun mm => mm.model_id == "m2")
      = some ⟨"m2", "gpt-x", ["AIME24"]⟩ := by
  have h := claim_C10 [⟨"m2", "gpt-x", ["AIME24"]⟩] "m2" "AIME24" true
    ⟨"m2", "gpt-x", ["AIME24"]⟩ rfl (Or.inl ⟨rfl, by decide⟩)
  exact ⟨h.1, h.2.1.trans (by decide), h.2.2.1, h.2.2.2⟩
